import Mathlib

/-!
Verification of the loan data-quality checks implemented in `data_checks.py`.

The file shallowly embeds the pandas transformers of that module:

* a `DataFrame` is a column-name list together with a list of rows, each row a
  list of cell values in column order;
* a cell `Value` is either missing (`NaN`/`NaT`), a string, a number (the
  numerals exercised by the checks are integers), or a parsed datetime
  (encoded as the natural `y*10000 + m*100 + d`, which orders chronologically);
* pandas elementwise operations (`pd.to_datetime`, `pd.to_numeric`, `<`, `==`,
  `isnull`) are modelled value by value with pandas' documented null
  semantics: coercion failures become the missing value, and comparisons
  against a missing value are `False`;
* raising Python exceptions is modelled with `Except`: an exception value
  records the exception class (`ValueError`, `TypeError`, `KeyError`) and its
  message, and a transformer that can raise returns `Except PyError _`.

Sorting (`DataFrame.sort_values`) is modelled after pandas' `nargsort`.  For
`ascending=True` it is an ascending argsort of the key column; for
`ascending=False` it reverses the key array, takes the ascending argsort of
the reversed array, and reverses the resulting indexer, so that the two
reversals cancel on tied keys and the descending sort is stable.  numpy's
default `quicksort` coincides with a stable sort on the array sizes arising
here (its small-array insertion-sort path), so the ascending argsort is
modelled as a stable insertion sort.
-/

/-- A cell of the tabular dataset.  `null` is pandas' missing marker
(`NaN`/`NaT`/`None`); `num` carries the integer numerals the checks exercise;
`date` is a parsed datetime encoded so that `Nat` order is chronological
order. -/
inductive Value where
  | null : Value
  | str (s : String) : Value
  | num (n : Int) : Value
  | date (d : Nat) : Value
deriving DecidableEq

/-- `pd.isnull` on one cell. -/
def Value.isnull : Value → Bool
  | Value.null => true
  | _ => false

/-- A pandas `DataFrame`: named columns and rows of cells in column order. -/
structure DataFrame where
  cols : List String
  rows : List (List Value)
deriving DecidableEq

/-- Cell of a row at column index `i`; out-of-range reads are missing. -/
def getCell (r : List Value) (i : Nat) : Value := r.getD i Value.null

/-- Index of the first column with the given name (`cols.length` if absent). -/
def colIdx (cols : List String) (c : String) : Nat := cols.findIdx (· == c)

/-- `X[c]` at one row: the cell under the first column named `c`. -/
def getColCell (cols : List String) (r : List Value) (c : String) : Value :=
  getCell r (colIdx cols c)

/-- A Python exception: its class and, when one was supplied, its message
(`KeyError` carries the missing key). -/
inductive PyError where
  | valueError (msg : Option String) : PyError
  | typeError (msg : Option String) : PyError
  | keyError (key : String) : PyError
deriving DecidableEq

/-- Discriminator: is this exception a `TypeError`? -/
def PyError.isTypeError : PyError → Bool
  | PyError.typeError _ => true
  | _ => false

/-- An argument handed to a transformer's `transform`: either a `DataFrame`
or some non-`DataFrame` Python object (the checks only inspect which of the
two it is). -/
inductive PyInput where
  | df (d : DataFrame) : PyInput
  | notDF : PyInput

/-- Substring test on character lists: does `p` occur contiguously in `l`? -/
def hasSubList (p : List Char) : List Char → Bool
  | [] => p.isEmpty
  | a :: t => p.isPrefixOf (a :: t) || hasSubList p t

/-- `re.search(pat, s)` for a literal pattern: substring containment. -/
def strContains (s pat : String) : Bool := hasSubList pat.data s.data

/-- `"sep".join` for `", "`, as used in the missing-column message. -/
def joinComma : List String → String
  | [] => ""
  | [c] => c
  | c :: c' :: cs => c ++ ", " ++ joinComma (c' :: cs)

/-- Split a character list at every occurrence of the separator `c`. -/
def splitOnChar (c : Char) : List Char → List (List Char)
  | [] => [[]]
  | a :: t =>
    let rest := splitOnChar c t
    if a == c then [] :: rest
    else
      match rest with
      | [] => [[a]]
      | g :: gs => (a :: g) :: gs

/-- Read an unsigned decimal numeral; `none` when empty or not all digits. -/
def digitsToNat : List Char → Option Nat
  | [] => none
  | l =>
    if l.all Char.isDigit then some (l.foldl (fun n c => n * 10 + (c.toNat - 48)) 0)
    else none

/-- Encoding of the calendar date `y-m-d` as a chronologically ordered `Nat`. -/
def dateCode (y m d : Nat) : Nat := y * 10000 + m * 100 + d

/-- One whole-string parse of `pd.to_datetime(s, format="%d/%m/%Y")`:
day/month/4-digit-year separated by slashes, with in-range day and month. -/
def fmt_dmY (s : String) : Option Nat :=
  match splitOnChar '/' s.data with
  | [d, m, y] =>
    match digitsToNat d, digitsToNat m, digitsToNat y with
    | some dn, some mn, some yn =>
      if 1 ≤ dn && dn ≤ 31 && 1 ≤ mn && mn ≤ 12 && y.length == 4 then
        some (dateCode yn mn dn)
      else none
    | _, _, _ => none
  | _ => none

/-- One whole-string parse of `pd.to_datetime(s, format="%Y-%m-%d")`:
4-digit-year/month/day separated by dashes, with in-range day and month. -/
def fmt_Ymd (s : String) : Option Nat :=
  match splitOnChar '-' s.data with
  | [y, m, d] =>
    match digitsToNat y, digitsToNat m, digitsToNat d with
    | some yn, some mn, some dn =>
      if 1 ≤ dn && dn ≤ 31 && 1 ≤ mn && mn ≤ 12 && y.length == 4 then
        some (dateCode yn mn dn)
      else none
    | _, _, _ => none
  | _ => none

/-- Elementwise `pd.to_datetime(·, format=fmt, errors="coerce")`: a string
parses under the format or coerces to `NaT`; a value that is already a
datetime (including `NaT`) passes through unchanged — pandas does not
re-apply the format to an already converted column. -/
def toDatetimeCoerce (fmt : String → Option Nat) : Value → Value
  | Value.str s =>
    match fmt s with
    | some d => Value.date d
    | none => Value.null
  | Value.date d => Value.date d
  | _ => Value.null

/-- Column indices selected by `X.filter(regex="date")`: every column whose
name contains the substring `"date"`. -/
def dateColIdxs (cols : List String) : List Nat :=
  (List.range cols.length).filter (fun i => strContains (cols.getD i "") "date")

/-- Apply one date format to the date-like cells of a row, the others kept. -/
def applyFmtCellsFrom (fmt : String → Option Nat) (dcols : List Nat) (i : Nat) :
    List Value → List Value
  | [] => []
  | v :: t =>
    (if dcols.contains i then toDatetimeCoerce fmt v else v) ::
      applyFmtCellsFrom fmt dcols (i + 1) t

/-- Apply one date format to the date-like columns of a row. -/
def applyFmtRow (fmt : String → Option Nat) (dcols : List Nat) (r : List Value) :
    List Value :=
  applyFmtCellsFrom fmt dcols 0 r

/-- `row[dates_columns].isnull().any()`: some date-like cell is missing. -/
def rowHasNullDate (dcols : List Nat) (r : List Value) : Bool :=
  dcols.any (fun i => (getCell r i).isnull)

/-- The format loop of `DateConverter.transform`.  `xtemp` is the working copy
`X_temp` (the loop converts it in place, so the next format is applied to the
already converted values, not to the originals) and `nc` the current value of
`not_converted_dates`.  After an application, if any date-like cell is null
the rows with a null date-like cell are taken as `not_converted_dates` and,
being non-empty, the loop breaks with them; otherwise the loop breaks with the
previous `not_converted_dates`. -/
def dateConvLoop (dcols : List Nat) (fmts : List (String → Option Nat))
    (xtemp nc : List (List Value)) : List (List Value) :=
  match fmts with
  | [] => nc
  | f :: fs =>
    let xt2 := xtemp.map (applyFmtRow f dcols)
    if xt2.any (rowHasNullDate dcols) then
      let nc2 := xt2.filter (rowHasNullDate dcols)
      if nc2.isEmpty then dateConvLoop dcols fs xt2 nc2 else nc2
    else nc

/-- `DateConverter.transform`: select the date-like columns, run the format
loop on a copy of `X`, and return the rows whose date-like cells could not be
converted (with their converted cell values). -/
def DateConverter_transform (date_formats : List (String → Option Nat))
    (X : DataFrame) : DataFrame :=
  ⟨X.cols, dateConvLoop (dateColIdxs X.cols) date_formats X.rows []⟩

/-- Elementwise `>` between two cells: parsed dates (and numbers) of the same
kind compare by their order; any comparison involving a missing value, or
values of different kinds, is `False`. -/
def gtV : Value → Value → Bool
  | Value.date a, Value.date b => decide (b < a)
  | Value.num a, Value.num b => decide (b < a)
  | _, _ => false

/-- `CheckInvalidDates.transform`:
`X[X["disbursement_date"] > X["expire_date"]]`.  Selecting a missing column
raises a `KeyError` (the start column is selected first). -/
def CheckInvalidDates_transform (X : DataFrame) : Except PyError DataFrame :=
  match X.cols.findIdx? (· == "disbursement_date"), X.cols.findIdx? (· == "expire_date") with
  | some i, some j =>
    Except.ok ⟨X.cols, X.rows.filter (fun r => gtV (getCell r i) (getCell r j))⟩
  | none, _ => Except.error (PyError.keyError "disbursement_date")
  | some _, none => Except.error (PyError.keyError "expire_date")

/-- The designated numeric columns of `ConvertedNumeric.transform`. -/
def num_columns : List String :=
  ["loan_amount", "number_of_defaults", "outstanding_balance", "interest_rate",
   "age", "remaining_term", "salary"]

/-- A decimal numeral, optionally signed, as `pd.to_numeric` reads the
numeric strings exercised by this dataset. -/
def parseNumStr (s : String) : Option Int :=
  match s.data with
  | '-' :: t => (digitsToNat t).map (fun n => -(n : Int))
  | l => (digitsToNat l).map (fun n => (n : Int))

/-- Elementwise `pd.to_numeric(·, errors="coerce")`: numbers and missing
values pass through, strings parse as numerals or coerce to `NaN`, and a
datetime takes its integer view. -/
def toNumericCoerce : Value → Value
  | Value.num n => Value.num n
  | Value.str s =>
    match parseNumStr s with
    | some n => Value.num n
    | none => Value.null
  | Value.date d => Value.num (Int.ofNat d)
  | Value.null => Value.null

/-- Coerce the designated numeric cells of a row, the others kept. -/
def coerceNumCellsFrom (cols : List String) (i : Nat) : List Value → List Value
  | [] => []
  | v :: t =>
    (if num_columns.contains (cols.getD i "") then toNumericCoerce v else v) ::
      coerceNumCellsFrom cols (i + 1) t

/-- Coerce the designated numeric columns of a row. -/
def coerceNumRow (cols : List String) (r : List Value) : List Value :=
  coerceNumCellsFrom cols 0 r

/-- `row[num_columns].isnull().any()`: some designated numeric cell missing. -/
def rowNumNull (cols : List String) (r : List Value) : Bool :=
  (List.range cols.length).any (fun i =>
    num_columns.contains (cols.getD i "") && (getCell r i).isnull)

/-- `ConvertedNumeric.transform`.  The source executes
`X[num_columns] = X[num_columns].apply(pd.to_numeric, errors="coerce")`,
which writes the coerced columns back into the caller's frame; the first
component of the result is therefore the state of the caller's `X` after the
call, and the second component the returned report
`X.loc[X[num_columns].isnull().any(axis=1)]` (taken from the mutated frame).
Selecting `X[num_columns]` with a designated column absent raises a
`KeyError`. -/
def ConvertedNumeric_transform (X : DataFrame) :
    Except PyError (DataFrame × DataFrame) :=
  match num_columns.filter (fun c => ! X.cols.contains c) with
  | [] =>
    let x2 : DataFrame := ⟨X.cols, X.rows.map (coerceNumRow X.cols)⟩
    Except.ok (x2, ⟨X.cols, x2.rows.filter (rowNumNull X.cols)⟩)
  | c :: _ => Except.error (PyError.keyError c)

/-- The default `num_columns_ck` of `CheckNegativeAmountsAndZeros`. -/
def default_num_columns_ck : List String :=
  ["loan_amount", "interest_rate", "age", "salary"]

/-- Elementwise `X[col] < 0`: `False` on a missing value. -/
def ltZeroV : Value → Bool
  | Value.num n => decide (n < 0)
  | _ => false

/-- Elementwise `X[col] == 0`: `False` on a missing value. -/
def eqZeroV : Value → Bool
  | Value.num n => decide (n = 0)
  | _ => false

/-- `CheckNegativeAmountsAndZeros.transform`: raises a bare `ValueError` when
the input is not a `DataFrame`; raises
`ValueError("Missing columns: ...")` naming the designated columns absent
from the frame; with an empty designated list, the comprehension builds no
condition and `pd.concat([], axis=1)` raises
`ValueError("No objects to concatenate")`; otherwise returns the rows where
some designated cell is `< 0` or `== 0`. -/
def CheckNegativeAmountsAndZeros_transform (num_columns_ck : List String)
    (X : PyInput) : Except PyError DataFrame :=
  match X with
  | PyInput.notDF => Except.error (PyError.valueError none)
  | PyInput.df d =>
    match num_columns_ck.filter (fun c => ! d.cols.contains c) with
    | [] =>
      if num_columns_ck.isEmpty then
        Except.error (PyError.valueError (some "No objects to concatenate"))
      else
        Except.ok ⟨d.cols, d.rows.filter (fun r =>
          num_columns_ck.any (fun c =>
            ltZeroV (getColCell d.cols r c) || eqZeroV (getColCell d.cols r c)))⟩
    | c :: cs =>
      Except.error (PyError.valueError
        (some ("Missing columns: " ++ joinComma (c :: cs))))

/-- Occurrences of `a` in a list. -/
def countOcc {α : Type} [DecidableEq α] (a : α) : List α → Nat
  | [] => 0
  | b :: t => (if b = a then 1 else 0) + countOcc a t

/-- Stable insertion of `x` into a list sorted by the strict comparison `lt`:
`x` goes in front of the first element it is strictly below. -/
def insertLt {α : Type} (lt : α → α → Bool) (x : α) : List α → List α
  | [] => [x]
  | y :: ys => if lt x y then x :: y :: ys else y :: insertLt lt x ys

/-- Stable ascending sort by the strict comparison `lt` (insertion sort, the
algorithm numpy's default sort runs on the array sizes arising here). -/
def sortLt {α : Type} (lt : α → α → Bool) (xs : List α) : List α :=
  xs.foldl (fun acc x => insertLt lt x acc) []

/-- Strict `<` between two cells used when sorting by a column: values of the
same kind compare by their order, anything else does not compare. -/
def vlt : Value → Value → Bool
  | Value.num a, Value.num b => decide (a < b)
  | Value.date a, Value.date b => decide (a < b)
  | Value.str a, Value.str b => decide (a < b)
  | _, _ => false

/-- `CheckDuplicates.transform`:
`X.loc[X.duplicated(keep=False)].sort_values("loan_id")` after rejecting
non-`DataFrame` input with `ValueError("Input must be a DataFrame")`.
`duplicated(keep=False)` marks a row iff the entire row (all columns) occurs
at least twice in the frame; `sort_values` raises a `KeyError` when the sort
column is absent — also on an empty selection, which keeps its columns — and
otherwise sorts the selection ascending by the `loan_id` cell. -/
def CheckDuplicates_transform (X : PyInput) : Except PyError DataFrame :=
  match X with
  | PyInput.notDF => Except.error (PyError.valueError (some "Input must be a DataFrame"))
  | PyInput.df d =>
    let dup := d.rows.filter (fun r => 2 ≤ countOcc r d.rows)
    if d.cols.contains "loan_id" then
      Except.ok ⟨d.cols,
        sortLt (fun r s =>
          vlt (getColCell d.cols r "loan_id") (getColCell d.cols s "loan_id")) dup⟩
    else Except.error (PyError.keyError "loan_id")

/-- Missing values in column `i`: one summand of `X.isnull().sum()`. -/
def missingCount (d : DataFrame) (i : Nat) : Nat :=
  (d.rows.filter (fun r => (getCell r i).isnull)).length

/-- The series `X.isnull().sum()` restricted to its positive entries
(`missing_counts[missing_counts > 0]`), in column (schema) order. -/
def missingPairs (d : DataFrame) : List (String × Nat) :=
  (List.range d.cols.length).filterMap (fun i =>
    if 0 < missingCount d i then some (d.cols.getD i "", missingCount d i) else none)

/-- `CheckMissingValues.transform`: the positive missing counts,
`sort_values('Missing Values', ascending=False)`.  pandas' `nargsort`
realizes the descending sort by reversing the key array, taking a (here
stable) ascending argsort of the reversed array, and reversing the
resulting indexer; the two reversals cancel on tied keys, so entries with
equal counts keep their original (schema) order. -/
def CheckMissingValues_transform (d : DataFrame) : List (String × Nat) :=
  (sortLt (fun a b => decide (a.2 < b.2)) (missingPairs d).reverse).reverse

/-- A cell that is a number or missing (a parsed numeric column's cell). -/
def isNumOrNull : Value → Bool
  | Value.null => true
  | Value.num _ => true
  | _ => false

/-- A cell that is a parsed date or missing (a parsed date column's cell). -/
def isDateOrNull : Value → Bool
  | Value.null => true
  | Value.date _ => true
  | _ => false

/-- A present (non-missing) value that numeric coercion cannot turn into a
number: exactly the strings that do not read as a numeral. -/
def failsNumericCoercion : Value → Bool
  | Value.str s => (parseNumStr s).isNone
  | _ => false

/-- A record violates the numeric-normalization rule as the code realizes it:
some designated numeric cell is missing in the input or is present but fails
numeric coercion. -/
def violNumRow (cols : List String) (r : List Value) : Bool :=
  (List.range cols.length).any (fun i =>
    num_columns.contains (cols.getD i "") &&
      ((getCell r i).isnull || failsNumericCoercion (getCell r i)))

deriving instance DecidableEq for Except

/-! ### Concrete datasets used to instantiate the claims -/

/-- One record whose date cell is written in ISO form, parseable by the
second candidate format but not by the first. -/
def dfC1 : DataFrame :=
  ⟨["loan_id", "disbursement_date"], [[Value.num 1, Value.str "2024-01-13"]]⟩

/-- Two records sharing `loan_id` 1 without being fully identical rows. -/
def dfC2 : DataFrame :=
  ⟨["loan_id", "loan_amount"],
   [[Value.num 1, Value.num 10], [Value.num 1, Value.num 20]]⟩

/-- One record whose `loan_amount` is missing and whose other designated
numeric cells are numbers. -/
def dfC3 : DataFrame :=
  ⟨num_columns,
   [[Value.null, Value.num 1, Value.num 1, Value.num 1, Value.num 1,
     Value.num 1, Value.num 1]]⟩

/-- Records exercising the numeric normalizer: one with a non-numeric
string, one fully numeric. -/
def dfC3w : DataFrame :=
  ⟨num_columns,
   [[Value.str "xy", Value.num 2, Value.num 2, Value.num 2, Value.num 2,
     Value.num 2, Value.num 2],
    [Value.num 3, Value.num 3, Value.num 3, Value.num 3, Value.num 3,
     Value.num 3, Value.num 3]]⟩

/-- One record whose `loan_amount` is the non-numeric string "abc". -/
def dfC4 : DataFrame :=
  ⟨num_columns,
   [[Value.str "abc", Value.num 1, Value.num 1, Value.num 1, Value.num 1,
     Value.num 1, Value.num 1]]⟩

/-- The state of `dfC4` after numeric coercion: the string became missing. -/
def dfC4after : DataFrame :=
  ⟨num_columns,
   [[Value.null, Value.num 1, Value.num 1, Value.num 1, Value.num 1,
     Value.num 1, Value.num 1]]⟩

/-- The spec's worked example: `loan_amount` values 1000, 0, -50, 500. -/
def dfC5 : DataFrame :=
  ⟨["loan_amount"],
   [[Value.num 1000], [Value.num 0], [Value.num (-50)], [Value.num 500]]⟩

/-- A frame missing most designated non-positive-check columns. -/
def dfC6 : DataFrame := ⟨["age"], []⟩

/-- Parsed start/end dates: one inverted range, one valid, one with a
missing start date. -/
def dfC7 : DataFrame :=
  ⟨["disbursement_date", "expire_date"],
   [[Value.date 20240110, Value.date 20240101],
    [Value.date 20240101, Value.date 20240110],
    [Value.null, Value.date 20240105]]⟩

/-- Three columns with missing counts 2, 1 and 1. -/
def dfC8b : DataFrame :=
  ⟨["a", "b", "c"],
   [[Value.null, Value.num 1, Value.null], [Value.null, Value.null, Value.num 2]]⟩

/-- A frame without a `loan_id` column and without duplicate rows. -/
def dfC9 : DataFrame := ⟨["a"], [[Value.num 1], [Value.num 2]]⟩

/-! ### Generic facts about the stable insertion sort -/

theorem perm_insertLt {α : Type} (lt : α → α → Bool) (x : α) :
    ∀ l : List α, List.Perm (insertLt lt x l) (x :: l) := by
  intro l
  induction l with
  | nil => exact List.Perm.refl _
  | cons y ys ih =>
    rw [insertLt]
    cases h : lt x y
    case false =>
      rw [if_neg (by simp)]
      exact (ih.cons y).trans (List.Perm.swap x y ys)
    case true =>
      rw [if_pos rfl]

theorem perm_foldl_insertLt {α : Type} (lt : α → α → Bool) :
    ∀ (xs acc : List α), List.Perm (xs.foldl (fun a x => insertLt lt x a) acc) (acc ++ xs) := by
  intro xs
  induction xs with
  | nil => intro acc; simp
  | cons x xs ih =>
    intro acc
    rw [List.foldl_cons]
    refine (ih (insertLt lt x acc)).trans ?_
    refine (List.Perm.append_right xs (perm_insertLt lt x acc)).trans ?_
    exact List.perm_middle.symm

theorem perm_sortLt {α : Type} (lt : α → α → Bool) (xs : List α) :
    List.Perm (sortLt lt xs) xs := by
  have h := perm_foldl_insertLt lt xs []
  simpa [sortLt] using h

theorem pairwise_insertLt {α : Type} (lt : α → α → Bool)
    (hasymm : ∀ a b, lt a b = true → lt b a = false)
    (htrans : ∀ a b c, lt a b = true → lt b c = true → lt a c = true)
    (x : α) : ∀ l : List α, l.Pairwise (fun a b => lt b a = false) →
      (insertLt lt x l).Pairwise (fun a b => lt b a = false) := by
  intro l
  induction l with
  | nil => intro _; simp [insertLt]
  | cons y ys ih =>
    intro hp
    rcases List.pairwise_cons.mp hp with ⟨hy, hys⟩
    rw [insertLt]
    cases h : lt x y
    case false =>
      rw [if_neg (by simp)]
      refine List.pairwise_cons.mpr ⟨?_, ih hys⟩
      intro z hz
      rcases List.mem_cons.mp ((perm_insertLt lt x ys).mem_iff.mp hz) with rfl | hz'
      · exact h
      · exact hy z hz'
    case true =>
      rw [if_pos rfl]
      refine List.pairwise_cons.mpr ⟨?_, hp⟩
      intro z hz
      rcases List.mem_cons.mp hz with rfl | hz'
      · exact hasymm _ _ h
      · cases hzx : lt z x
        · rfl
        · exact absurd (htrans _ _ _ hzx h) (by simp [hy z hz'])

theorem pairwise_foldl_insertLt {α : Type} (lt : α → α → Bool)
    (hasymm : ∀ a b, lt a b = true → lt b a = false)
    (htrans : ∀ a b c, lt a b = true → lt b c = true → lt a c = true) :
    ∀ (xs acc : List α), acc.Pairwise (fun a b => lt b a = false) →
      (xs.foldl (fun a x => insertLt lt x a) acc).Pairwise (fun a b => lt b a = false) := by
  intro xs
  induction xs with
  | nil => intro acc h; exact h
  | cons x xs ih =>
    intro acc h
    rw [List.foldl_cons]
    exact ih _ (pairwise_insertLt lt hasymm htrans x acc h)

theorem pairwise_sortLt {α : Type} (lt : α → α → Bool)
    (hasymm : ∀ a b, lt a b = true → lt b a = false)
    (htrans : ∀ a b c, lt a b = true → lt b c = true → lt a c = true)
    (xs : List α) : (sortLt lt xs).Pairwise (fun a b => lt b a = false) :=
  pairwise_foldl_insertLt lt hasymm htrans xs [] List.Pairwise.nil

theorem filter_insertLt {α : Type} (lt : α → α → Bool) (p : α → Bool)
    (hirr : ∀ a, lt a a = false)
    (hcomp : ∀ a b, p a = true → p b = true → ∀ c, lt a c = lt b c)
    (x : α) : ∀ l : List α, l.Pairwise (fun a b => lt b a = false) →
      (insertLt lt x l).filter p = l.filter p ++ (if p x then [x] else []) := by
  intro l
  induction l with
  | nil =>
    intro _
    rw [insertLt]
    cases hpx : p x
    · simp [List.filter_cons, hpx]
    · simp [List.filter_cons, hpx]
  | cons y ys ih =>
    intro hp
    rcases List.pairwise_cons.mp hp with ⟨hy, hys⟩
    rw [insertLt]
    cases h : lt x y
    case false =>
      rw [if_neg (by simp)]
      rw [List.filter_cons, List.filter_cons, ih hys]
      cases hpy : p y
      · simp [hpy]
      · simp [hpy]
    case true =>
      rw [if_pos rfl]
      cases hpx : p x
      case false =>
        rw [List.filter_cons, if_neg (by simp [hpx]), if_neg (by simp [hpx])]
        simp
      case true =>
        have hnil : (y :: ys).filter p = [] := by
          rw [List.filter_eq_nil_iff]
          intro z hz hpz
          rcases List.mem_cons.mp hz with rfl | hz'
          · have h1 := hcomp x z hpx hpz z
            rw [hirr z] at h1
            rw [h1] at h
            exact absurd h (by simp)
          · have h1 := hcomp z x hpz hpx y
            rw [h] at h1
            rw [hy z hz'] at h1
            exact absurd h1 (by simp)
        rw [List.filter_cons, if_pos hpx, hnil]
        simp

theorem filter_foldl_insertLt {α : Type} (lt : α → α → Bool) (p : α → Bool)
    (hasymm : ∀ a b, lt a b = true → lt b a = false)
    (htrans : ∀ a b c, lt a b = true → lt b c = true → lt a c = true)
    (hirr : ∀ a, lt a a = false)
    (hcomp : ∀ a b, p a = true → p b = true → ∀ c, lt a c = lt b c) :
    ∀ (xs acc : List α), acc.Pairwise (fun a b => lt b a = false) →
      (xs.foldl (fun a x => insertLt lt x a) acc).filter p =
        acc.filter p ++ xs.filter p := by
  intro xs
  induction xs with
  | nil => intro acc _; simp
  | cons x xs ih =>
    intro acc h
    rw [List.foldl_cons, ih _ (pairwise_insertLt lt hasymm htrans x acc h),
      filter_insertLt lt p hirr hcomp x acc h, List.filter_cons]
    cases hpx : p x
    · simp
    · simp [List.append_assoc]

theorem filter_sortLt {α : Type} (lt : α → α → Bool) (p : α → Bool)
    (hasymm : ∀ a b, lt a b = true → lt b a = false)
    (htrans : ∀ a b c, lt a b = true → lt b c = true → lt a c = true)
    (hirr : ∀ a, lt a a = false)
    (hcomp : ∀ a b, p a = true → p b = true → ∀ c, lt a c = lt b c)
    (xs : List α) : (sortLt lt xs).filter p = xs.filter p := by
  have h := filter_foldl_insertLt lt p hasymm htrans hirr hcomp xs [] List.Pairwise.nil
  simpa [sortLt] using h

theorem any_congrOn {α : Type} {l : List α} {p q : α → Bool}
    (h : ∀ a ∈ l, p a = q a) : l.any p = l.any q := by
  induction l with
  | nil => rfl
  | cons a t ih =>
    rw [List.any_cons, List.any_cons, h a (List.mem_cons_self a t),
      ih (fun b hb => h b (List.mem_cons_of_mem a hb))]

/-! ### Cell-level facts about numeric coercion -/

theorem getCell_nil (j : Nat) : getCell [] j = Value.null := by
  cases j <;> rfl

theorem getCell_cons_zero (v : Value) (t : List Value) : getCell (v :: t) 0 = v := rfl

theorem getCell_cons_succ (v : Value) (t : List Value) (k : Nat) :
    getCell (v :: t) (k + 1) = getCell t k := rfl

theorem toNumericCoerce_isnull (v : Value) :
    (toNumericCoerce v).isnull = (v.isnull || failsNumericCoercion v) := by
  cases v with
  | null => rfl
  | num n => rfl
  | date d => rfl
  | str s =>
    cases h : parseNumStr s <;>
      simp [toNumericCoerce, failsNumericCoercion, h, Value.isnull]

theorem getCell_coerceNumCellsFrom (cols : List String) :
    ∀ (r : List Value) (i j : Nat),
      getCell (coerceNumCellsFrom cols i r) j =
        if num_columns.contains (cols.getD (i + j) "") then toNumericCoerce (getCell r j)
        else getCell r j := by
  intro r
  induction r with
  | nil =>
    intro i j
    rw [coerceNumCellsFrom, getCell_nil]
    split <;> rfl
  | cons v t ih =>
    intro i j
    cases j with
    | zero =>
      rw [coerceNumCellsFrom, getCell_cons_zero, getCell_cons_zero, Nat.add_zero]
    | succ k =>
      rw [coerceNumCellsFrom, getCell_cons_succ, getCell_cons_succ]
      have h : i + (k + 1) = (i + 1) + k := by omega
      rw [h]
      exact ih (i + 1) k

theorem rowNumNull_coerceNumRow (cols : List String) (r : List Value) :
    rowNumNull cols (coerceNumRow cols r) = violNumRow cols r := by
  rw [rowNumNull, violNumRow]
  apply any_congrOn
  intro i _
  rw [coerceNumRow, getCell_coerceNumCellsFrom cols r 0 i, Nat.zero_add]
  cases hc : num_columns.contains (cols.getD i "")
  · simp
  · simp [toNumericCoerce_isnull]

/-! ### Claims C3, C4, C5, C7, C9, C10 -/

/-- C3, counterexample: in `dfC3` the `loan_amount` cell is null in the
input while every designated cell is null-or-coercible, so no designated
column is "non-null but failing numeric coercion"; the claim would keep the
record out of the violation report, yet the report contains it. -/
theorem C3_counterexample :
    ConvertedNumeric_transform dfC3 = Except.ok (dfC3, ⟨num_columns, dfC3.rows⟩) ∧
    dfC3.rows ≠ [] ∧
    dfC3.rows.all (fun r => (List.range dfC3.cols.length).all (fun i =>
      ! (num_columns.contains (dfC3.cols.getD i "") && ! (getCell r i).isnull &&
          failsNumericCoercion (getCell r i)))) = true := by
  refine ⟨by decide, by decide, by decide⟩

/-- C3, amended: with every designated numeric column present, a record
contributes (its coerced form) to `ConvertedNumeric.transform`'s violation
report iff at least one designated column is missing in the input **or**
non-null but failing numeric coercion. -/
theorem C3_amended_nulls_flagged (X : DataFrame)
    (h : num_columns.filter (fun c => ! X.cols.contains c) = []) :
    ∃ x2 rep, ConvertedNumeric_transform X = Except.ok (x2, rep) ∧
      rep.rows = (X.rows.filter (violNumRow X.cols)).map (coerceNumRow X.cols) := by
  refine ⟨⟨X.cols, X.rows.map (coerceNumRow X.cols)⟩,
    ⟨X.cols, (X.rows.map (coerceNumRow X.cols)).filter (rowNumNull X.cols)⟩, ?_, ?_⟩
  · rw [ConvertedNumeric_transform, h]
  · show (X.rows.map (coerceNumRow X.cols)).filter (rowNumNull X.cols) = _
    rw [List.filter_map]
    congr 1
    apply List.filter_congr
    intro r _
    exact rowNumNull_coerceNumRow X.cols r

/-- C3, witness: the amended statement evaluated on `dfC3w`, whose first
record has a non-coercible string and whose second is fully numeric. -/
theorem C3_witness :
    ∃ x2 rep, ConvertedNumeric_transform dfC3w = Except.ok (x2, rep) ∧
      rep.rows = (dfC3w.rows.filter (violNumRow dfC3w.cols)).map (coerceNumRow dfC3w.cols) :=
  C3_amended_nulls_flagged dfC3w (by decide)

/-- C4: `ConvertedNumeric.transform` writes the coerced numeric columns back
into the caller's frame.  On `dfC4` the caller's dataset after the call
(`dfC4after`, first result component) differs from the dataset passed in:
the non-numeric string `"abc"` has been overwritten with the missing
marker. -/
theorem C4_code_evaluation :
    ConvertedNumeric_transform dfC4 = Except.ok (dfC4after, dfC4after) ∧
    dfC4after ≠ dfC4 := by
  refine ⟨by decide, by decide⟩

/-- C5: with a non-empty designated column list, all designated columns
present and their cells numeric-or-missing, a record is in
`CheckNegativeAmountsAndZeros.transform`'s report iff some designated
column holds a non-null value `≤ 0`; missing values never flag a record. -/
theorem C5_nonpositive_iff (d : DataFrame) (C : List String)
    (hC : C ≠ [])
    (hpres : C.filter (fun c => ! d.cols.contains c) = [])
    (hnum : ∀ r ∈ d.rows, ∀ c ∈ C, isNumOrNull (getColCell d.cols r c) = true) :
    ∃ out, CheckNegativeAmountsAndZeros_transform C (PyInput.df d) = Except.ok out ∧
      ∀ r, r ∈ out.rows ↔ r ∈ d.rows ∧
        ∃ c ∈ C, ∃ n : Int, getColCell d.cols r c = Value.num n ∧ n ≤ 0 := by
  have hne : C.isEmpty = false := by
    cases C with
    | nil => exact absurd rfl hC
    | cons a t => rfl
  refine ⟨⟨d.cols, d.rows.filter (fun r => C.any (fun c =>
      ltZeroV (getColCell d.cols r c) || eqZeroV (getColCell d.cols r c)))⟩, ?_, ?_⟩
  · rw [CheckNegativeAmountsAndZeros_transform, hpres]
    rw [if_neg (by simp [hne])]
  · intro r
    show r ∈ List.filter _ d.rows ↔ _
    rw [List.mem_filter]
    constructor
    · rintro ⟨hr, hpred⟩
      refine ⟨hr, ?_⟩
      rcases List.any_eq_true.mp hpred with ⟨c, hc, hcc⟩
      refine ⟨c, hc, ?_⟩
      have hv := hnum r hr c hc
      cases hv0 : getColCell d.cols r c with
      | num n =>
        refine ⟨n, rfl, ?_⟩
        rw [hv0] at hcc
        simp [ltZeroV, eqZeroV] at hcc
        omega
      | null => rw [hv0] at hcc; simp [ltZeroV, eqZeroV] at hcc
      | str s => rw [hv0] at hv; simp [isNumOrNull] at hv
      | date dd => rw [hv0] at hv; simp [isNumOrNull] at hv
    · rintro ⟨hr, c, hc, n, hv, hn⟩
      refine ⟨hr, ?_⟩
      apply List.any_eq_true.mpr
      refine ⟨c, hc, ?_⟩
      rw [hv]
      simp [ltZeroV, eqZeroV]
      omega

/-- C5, witness: the spec's own example, `loan_amount` values
1000, 0, -50, 500 checked under `["loan_amount"]`. -/
theorem C5_witness :
    ∃ out, CheckNegativeAmountsAndZeros_transform ["loan_amount"] (PyInput.df dfC5) =
        Except.ok out ∧
      ∀ r, r ∈ out.rows ↔ r ∈ dfC5.rows ∧
        ∃ c ∈ ["loan_amount"], ∃ n : Int, getColCell dfC5.cols r c = Value.num n ∧ n ≤ 0 :=
  C5_nonpositive_iff dfC5 ["loan_amount"] (by decide) (by decide) (by decide)

/-- C7: on a frame whose start/end date cells are parsed (date or missing),
a record is in `CheckInvalidDates.transform`'s report iff both dates are
present and the start date strictly exceeds the end date; a missing date
never flags a record. -/
theorem C7_date_range_iff (d : DataFrame) (i j : Nat)
    (hi : d.cols.findIdx? (· == "disbursement_date") = some i)
    (hj : d.cols.findIdx? (· == "expire_date") = some j)
    (hparsed : ∀ r ∈ d.rows,
      isDateOrNull (getCell r i) = true ∧ isDateOrNull (getCell r j) = true) :
    ∃ out, CheckInvalidDates_transform d = Except.ok out ∧
      ∀ r, r ∈ out.rows ↔ r ∈ d.rows ∧
        ∃ a b, getCell r i = Value.date a ∧ getCell r j = Value.date b ∧ b < a := by
  refine ⟨⟨d.cols, d.rows.filter (fun r => gtV (getCell r i) (getCell r j))⟩, ?_, ?_⟩
  · rw [CheckInvalidDates_transform, hi, hj]
  · intro r
    show r ∈ List.filter _ d.rows ↔ _
    rw [List.mem_filter]
    constructor
    · rintro ⟨hr, hg⟩
      refine ⟨hr, ?_⟩
      rcases hparsed r hr with ⟨h1, h2⟩
      cases hv1 : getCell r i with
      | date a =>
        cases hv2 : getCell r j with
        | date b =>
          refine ⟨a, b, rfl, rfl, ?_⟩
          rw [hv1, hv2] at hg
          simpa [gtV] using hg
        | null => rw [hv1, hv2] at hg; simp [gtV] at hg
        | str s => rw [hv2] at h2; simp [isDateOrNull] at h2
        | num n => rw [hv2] at h2; simp [isDateOrNull] at h2
      | null =>
        cases hv2 : getCell r j <;> (rw [hv1, hv2] at hg; simp [gtV] at hg)
      | str s => rw [hv1] at h1; simp [isDateOrNull] at h1
      | num n => rw [hv1] at h1; simp [isDateOrNull] at h1
    · rintro ⟨hr, a, b, ha, hb, hab⟩
      refine ⟨hr, ?_⟩
      rw [ha, hb]
      simpa [gtV] using hab

/-- C7, witness: the spec's example frame, one inverted range, one valid
range and one missing start date; only the inverted record is reported. -/
theorem C7_witness :
    ∃ out, CheckInvalidDates_transform dfC7 = Except.ok out ∧
      ∀ r, r ∈ out.rows ↔ r ∈ dfC7.rows ∧
        ∃ a b, getCell r 0 = Value.date a ∧ getCell r 1 = Value.date b ∧ b < a :=
  C7_date_range_iff dfC7 0 1 (by decide) (by decide) (by decide)

/-- C9: `CheckDuplicates.transform` sorts its selection by `loan_id`, so on
any frame without that column it raises a `KeyError` instead of returning a
report. -/
theorem C9_missing_loan_id_raises (d : DataFrame)
    (h : d.cols.contains "loan_id" = false) :
    CheckDuplicates_transform (PyInput.df d) = Except.error (PyError.keyError "loan_id") := by
  have h' : "loan_id" ∉ d.cols := by simpa using h
  simp [CheckDuplicates_transform, h']

/-- C9, witness: a frame without `loan_id` and without any duplicated row
still raises the `KeyError`. -/
theorem C9_witness :
    dfC9.rows.filter (fun r => 2 ≤ countOcc r dfC9.rows) = [] ∧
    CheckDuplicates_transform (PyInput.df dfC9) = Except.error (PyError.keyError "loan_id") :=
  ⟨by decide, C9_missing_loan_id_raises dfC9 (by decide)⟩

/-- C10: with an empty designated column list,
`CheckNegativeAmountsAndZeros.transform` builds no condition and
`pd.concat([], axis=1)` raises `ValueError("No objects to concatenate")` on
every frame, instead of returning an empty report. -/
theorem C10_empty_check_list_raises (d : DataFrame) :
    CheckNegativeAmountsAndZeros_transform [] (PyInput.df d) =
      Except.error (PyError.valueError (some "No objects to concatenate")) := rfl

/-! ### Substring facts for the missing-column message -/

theorem hasSubList_empty (l : List Char) : hasSubList [] l = true := by
  cases l with
  | nil => rfl
  | cons a t => simp [hasSubList, List.isPrefixOf]

theorem hasSubList_of_isPrefixOf {p l : List Char} (h : p.isPrefixOf l = true) :
    hasSubList p l = true := by
  cases l with
  | nil =>
    cases p with
    | nil => rfl
    | cons a t => simp [List.isPrefixOf] at h
  | cons a t => simp [hasSubList, h]

theorem hasSubList_append_right (p l t : List Char)
    (h : hasSubList p t = true) : hasSubList p (l ++ t) = true := by
  induction l with
  | nil => simpa using h
  | cons a l' ih => simp [hasSubList, ih]

theorem isPrefixOf_append (p l t : List Char) (h : p.isPrefixOf l = true) :
    p.isPrefixOf (l ++ t) = true := by
  rw [List.isPrefixOf_iff_prefix] at h ⊢
  exact h.trans (List.prefix_append l t)

theorem hasSubList_append_left (p l t : List Char)
    (h : hasSubList p l = true) : hasSubList p (l ++ t) = true := by
  induction l with
  | nil =>
    have hp : p = [] := by simpa [hasSubList, List.isEmpty_iff] using h
    subst hp
    exact hasSubList_empty t
  | cons a l' ih =>
    rw [hasSubList] at h
    cases h1 : p.isPrefixOf (a :: l')
    · rw [h1] at h
      simp only [Bool.false_or] at h
      rw [List.cons_append, hasSubList]
      simp [ih h]
    · exact hasSubList_of_isPrefixOf (isPrefixOf_append p (a :: l') t h1)

theorem isPrefixOf_self (p : List Char) : p.isPrefixOf p = true := by
  simp [List.isPrefixOf_iff_prefix]

theorem strContains_joinComma {c : String} :
    ∀ l : List String, c ∈ l → strContains (joinComma l) c = true := by
  intro l
  induction l with
  | nil => intro h; cases h
  | cons x xs ih =>
    intro h
    cases xs with
    | nil =>
      have hc : c = x := by simpa using h
      subst hc
      rw [joinComma, strContains]
      exact hasSubList_of_isPrefixOf (isPrefixOf_self c.data)
    | cons y ys =>
      rcases List.mem_cons.mp h with rfl | h'
      · rw [joinComma, strContains, String.data_append, String.data_append,
          List.append_assoc]
        exact hasSubList_of_isPrefixOf
          (isPrefixOf_append c.data c.data _ (isPrefixOf_self c.data))
      · rw [joinComma, strContains, String.data_append]
        exact hasSubList_append_right c.data _ _ (ih h')

/-! ### Claims C1, C2, C6 -/

/-- C1: the format loop of `DateConverter.transform` applies each later
format to the already converted working copy and breaks as soon as a trial
leaves any unconverted value, so it never retries from the original column
values.  In `dfC1` the only date-like value parses under the second
candidate format (`fmt_Ymd`) and not under the first, so under the claim the
violation set would be empty; the code instead reports the row, its date
cell coerced to the missing marker by the first trial. -/
theorem C1_code_evaluation :
    fmt_dmY "2024-01-13" = none ∧ fmt_Ymd "2024-01-13" = some 20240113 ∧
    DateConverter_transform [fmt_dmY, fmt_Ymd] dfC1 =
      ⟨["loan_id", "disbursement_date"], [[Value.num 1, Value.null]]⟩ := by
  refine ⟨by decide, by decide, by decide⟩

/-- C2: `CheckDuplicates.transform` marks duplicates with
`X.duplicated(keep=False)`, full-row duplication over all columns, not
duplication of the `loan_id` key its docstring names.  In `dfC2` the
identifier 1 occurs twice but no full row repeats, so the report is empty
where the claim requires both records to be returned. -/
theorem C2_code_evaluation :
    CheckDuplicates_transform (PyInput.df dfC2) =
      Except.ok (⟨dfC2.cols, []⟩ : DataFrame) ∧
    countOcc (Value.num 1) (dfC2.rows.map (fun r => getColCell dfC2.cols r "loan_id")) = 2 := by
  refine ⟨by decide, by decide⟩

/-- C6, counterexample: on a non-`DataFrame` input the code raises a bare
`ValueError`, which is not a `TypeError`; the claim calls for a type
error. -/
theorem C6_counterexample :
    CheckNegativeAmountsAndZeros_transform default_num_columns_ck PyInput.notDF =
      Except.error (PyError.valueError none) ∧
    PyError.isTypeError (PyError.valueError none) = false := by
  refine ⟨rfl, rfl⟩

/-- C6, amended: when at least one designated column is absent the check
raises a `ValueError` whose message names every missing designated column
(and nothing is returned), and on a non-tabular input it raises a
`ValueError` (the same validation-error class, with no message) rather
than a type error. -/
theorem C6_amended_value_errors (C : List String) (d : DataFrame)
    (h : C.filter (fun c => ! d.cols.contains c) ≠ []) :
    (∃ msg, CheckNegativeAmountsAndZeros_transform C (PyInput.df d) =
        Except.error (PyError.valueError (some msg)) ∧
      msg = "Missing columns: " ++ joinComma (C.filter (fun c => ! d.cols.contains c)) ∧
      ∀ c ∈ C, d.cols.contains c = false → strContains msg c = true) ∧
    CheckNegativeAmountsAndZeros_transform C PyInput.notDF =
      Except.error (PyError.valueError none) := by
  constructor
  · cases hm : C.filter (fun c => ! d.cols.contains c) with
    | nil => exact absurd hm h
    | cons a as =>
      refine ⟨"Missing columns: " ++ joinComma (a :: as), ?_, rfl, ?_⟩
      · rw [CheckNegativeAmountsAndZeros_transform, hm]
      · intro c hc hcc
        have hmem : c ∈ C.filter (fun c => ! d.cols.contains c) := by
          rw [List.mem_filter]
          exact ⟨hc, by simpa using hcc⟩
        rw [hm] at hmem
        rw [strContains, String.data_append]
        exact hasSubList_append_right c.data _ _ (strContains_joinComma (a :: as) hmem)
  · rfl

/-- C6, witness: the default check-column list against a frame having only
an `age` column; the message names `loan_amount`, `interest_rate` and
`salary`. -/
theorem C6_witness :
    (∃ msg, CheckNegativeAmountsAndZeros_transform default_num_columns_ck (PyInput.df dfC6) =
        Except.error (PyError.valueError (some msg)) ∧
      msg = "Missing columns: " ++
        joinComma (default_num_columns_ck.filter (fun c => ! dfC6.cols.contains c)) ∧
      ∀ c ∈ default_num_columns_ck, dfC6.cols.contains c = false →
        strContains msg c = true) ∧
    CheckNegativeAmountsAndZeros_transform default_num_columns_ck PyInput.notDF =
      Except.error (PyError.valueError none) :=
  C6_amended_value_errors default_num_columns_ck dfC6 (by decide)

/-! ### Claim C8 -/

theorem mem_missingPairs {d : DataFrame} {c : String} {n : Nat} :
    (c, n) ∈ missingPairs d ↔
      ∃ i, i < d.cols.length ∧ d.cols.getD i "" = c ∧ missingCount d i = n ∧ 0 < n := by
  rw [missingPairs, List.mem_filterMap]
  constructor
  · rintro ⟨i, hi, hf⟩
    rw [List.mem_range] at hi
    by_cases hpos : 0 < missingCount d i
    · rw [if_pos hpos] at hf
      have h2 := Option.some.inj hf
      have h3 := congrArg Prod.fst h2
      have h4 := congrArg Prod.snd h2
      simp only at h3 h4
      exact ⟨i, hi, h3, h4, h4 ▸ hpos⟩
    · rw [if_neg hpos] at hf
      cases hf
  · rintro ⟨i, hi, hc, hn, hpos⟩
    refine ⟨i, List.mem_range.mpr hi, ?_⟩
    rw [if_pos (by rw [hn]; exact hpos), hc, hn]

theorem pairwise_ne_fst_missingPairs (d : DataFrame) (hnd : d.cols.Nodup) :
    (missingPairs d).Pairwise (fun p q => p.1 ≠ q.1) := by
  rw [missingPairs, List.pairwise_filterMap, List.pairwise_iff_getElem]
  intro i j hi hj hij
  simp only [List.getElem_range]
  intro b hb b' hb'
  by_cases hpi : 0 < missingCount d i
  · by_cases hpj : 0 < missingCount d j
    · rw [if_pos hpi] at hb
      rw [if_pos hpj] at hb'
      rw [Option.mem_def] at hb hb'
      have hb2 := Option.some.inj hb
      have hb3 := Option.some.inj hb'
      subst hb2
      subst hb3
      simp only [ne_eq]
      intro he
      have hi' : i < d.cols.length := by simpa using hi
      have hj' : j < d.cols.length := by simpa using hj
      rw [List.getD_eq_getElem?_getD, List.getD_eq_getElem?_getD,
        List.getElem?_eq_getElem hi', List.getElem?_eq_getElem hj'] at he
      simp only [Option.getD_some] at he
      exact absurd (hnd.getElem_inj_iff.mp he) (by omega)
    · rw [if_neg hpj] at hb'
      simp at hb'
  · rw [if_neg hpi] at hb
    simp at hb

/-- C8: `CheckMissingValues.transform` has exactly one entry per column
with at least one missing value (no zero-count entry), sorted by missing
count descending; entries with tied counts keep their schema order (the
descending sort is stable): for every count the tied entries appear exactly
as in the schema-ordered positive-count series. -/
theorem C8_summary_sorted_stable (d : DataFrame) (hnd : d.cols.Nodup) :
    (∀ c n, (c, n) ∈ CheckMissingValues_transform d ↔
      ∃ i, i < d.cols.length ∧ d.cols.getD i "" = c ∧ missingCount d i = n ∧ 0 < n) ∧
    (CheckMissingValues_transform d).Pairwise (fun p q => p.1 ≠ q.1) ∧
    (CheckMissingValues_transform d).Pairwise (fun p q => q.2 ≤ p.2) ∧
    ∀ k, (CheckMissingValues_transform d).filter (fun p => p.2 == k) =
      (missingPairs d).filter (fun p => p.2 == k) := by
  have hasymm : ∀ a b : String × Nat,
      decide (a.2 < b.2) = true → decide (b.2 < a.2) = false := by
    intro a b hab
    simp at hab ⊢
    omega
  have htrans : ∀ a b c : String × Nat, decide (a.2 < b.2) = true →
      decide (b.2 < c.2) = true → decide (a.2 < c.2) = true := by
    intro a b c h1 h2
    simp at h1 h2 ⊢
    omega
  have hirr : ∀ a : String × Nat, decide (a.2 < a.2) = false := by
    intro a
    simp
  refine ⟨?_, ?_, ?_, ?_⟩
  · intro c n
    rw [CheckMissingValues_transform, List.mem_reverse,
      (perm_sortLt (fun a b : String × Nat => decide (a.2 < b.2))
        (missingPairs d).reverse).mem_iff,
      List.mem_reverse, mem_missingPairs]
  · rw [CheckMissingValues_transform, List.pairwise_reverse]
    have h1 := pairwise_ne_fst_missingPairs d hnd
    have h0 : (missingPairs d).reverse.Pairwise (fun p q => p.1 ≠ q.1) := by
      rw [List.pairwise_reverse]
      exact h1.imp (fun h => Ne.symm h)
    have h2 := ((perm_sortLt (fun a b : String × Nat => decide (a.2 < b.2))
      (missingPairs d).reverse).pairwise_iff (fun h => Ne.symm h)).mpr h0
    exact h2.imp (fun h => Ne.symm h)
  · rw [CheckMissingValues_transform, List.pairwise_reverse]
    have h3 := pairwise_sortLt (fun a b : String × Nat => decide (a.2 < b.2))
      hasymm htrans (missingPairs d).reverse
    exact h3.imp (fun h => by simp at h; omega)
  · intro k
    have hcomp : ∀ a b : String × Nat, (a.2 == k) = true → (b.2 == k) = true →
        ∀ c : String × Nat, decide (a.2 < c.2) = decide (b.2 < c.2) := by
      intro a b ha hb c
      have ha' : a.2 = k := by simpa using ha
      have hb' : b.2 = k := by simpa using hb
      rw [ha', hb']
    rw [CheckMissingValues_transform, List.filter_reverse,
      filter_sortLt (fun a b : String × Nat => decide (a.2 < b.2))
        (fun p => p.2 == k) hasymm htrans hirr hcomp (missingPairs d).reverse,
      List.filter_reverse, List.reverse_reverse]

/-- C8, witness: the statement evaluated on a frame with missing counts
2, 1, 1 over columns `a`, `b`, `c`; the tied singleton counts keep the
schema order `b` before `c` under the descending sort. -/
theorem C8_witness :
    (∀ c n, (c, n) ∈ CheckMissingValues_transform dfC8b ↔
      ∃ i, i < dfC8b.cols.length ∧ dfC8b.cols.getD i "" = c ∧
        missingCount dfC8b i = n ∧ 0 < n) ∧
    (CheckMissingValues_transform dfC8b).Pairwise (fun p q => p.1 ≠ q.1) ∧
    (CheckMissingValues_transform dfC8b).Pairwise (fun p q => q.2 ≤ p.2) ∧
    ∀ k, (CheckMissingValues_transform dfC8b).filter (fun p => p.2 == k) =
      (missingPairs dfC8b).filter (fun p => p.2 == k) :=
  C8_summary_sorted_stable dfC8b (by decide)
